import Mathlib

/-!
Verification development for the LMP forecasting walk-forward backtest
script (`run.py`).  The script drives a daily recalibrate-and-forecast
loop over a train/test split of hourly electricity price data: for each
test day it builds the causally valid data window, masks the target
day's prices, invokes the model, writes the 24 predictions into the
forecast matrix and recomputes running MAE / sMAPE over the prefix of
days completed so far.

The shallow embedding below translates the script's data flow into pure
Lean functions.  Hourly timestamps are `Nat` (hours since an arbitrary
epoch); prices are `ℚ` with `Option` modelling floating-point NaN
(`none` = NaN, used by the masking step); a pandas DataFrame of hourly
observations is a list of `Row`s ordered as the frame's index.
-/

/-- One hourly record of an Observation Series: timestamp (in hours),
price (`none` models NaN) and the exogenous covariate values of that
hour. -/
structure Row where
  ts : Nat
  price : Option ℚ
  covariates : List ℚ
deriving DecidableEq

/-- Default row used only as the junk value of `List.getD`. -/
def dRow : Row := { ts := 0, price := none, covariates := [] }

/-- Fuel-indexed helper realizing the stride-24 index selection; the
fuel starts at the list length (each step consumes at least one
element, so the fuel never runs out first), letting the function
compute by structural recursion. -/
def every24Go : Nat → List Nat → List Nat
  | 0, _ => []
  | _ + 1, [] => []
  | fuel + 1, x :: xs => x :: every24Go fuel (xs.drop 23)

/-- `df_test.index[::24]` (run.py line 124): every 24th element of the
hourly index, i.e. the midnight timestamp of each test day. -/
def every24 (l : List Nat) : List Nat := every24Go l.length l

/-- Fuel-indexed helper realizing the reshape into 24-element rows;
the fuel starts at the list length, as for `every24Go`. -/
def chunk24Go : Nat → List ℚ → List (List ℚ)
  | 0, _ => []
  | _ + 1, [] => []
  | fuel + 1, x :: xs => (x :: xs.take 23) :: chunk24Go fuel (xs.drop 23)

/-- `values.reshape(-1, 24)` (run.py line 125): split the hourly price
vector into consecutive 24-element day rows.  numpy raises a
`ValueError` when the length is not a multiple of 24; the length check
lives at the call site in `mainRun`. -/
def chunk24 (l : List ℚ) : List (List ℚ) := chunk24Go l.length l

/-- Arithmetic mean, as `np.mean` on a flattened array.  (`ℚ` division
by zero yields 0 where numpy would yield NaN; no claim depends on the
empty or all-zero case.) -/
def listMean (xs : List ℚ) : ℚ := xs.sum / (xs.length : ℚ)

/-- Modelled from the spec: the external Metric Function
`epftoolbox.evaluation.MAE` (not under src/) — "mean absolute error",
accepting two equal-shaped numeric collections, here flattened to
lists. -/
def MAE (p1 p2 : List ℚ) : ℚ :=
  listMean (List.zipWith (fun a b => |a - b|) p1 p2)

/-- Modelled from the spec: the external Metric Function
`epftoolbox.evaluation.sMAPE` (not under src/) — "mean symmetric
absolute percentage error": mean of `|a - b| / ((|a| + |b|) / 2)`,
accepting two equal-shaped numeric collections, here flattened to
lists. -/
def sMAPE (p1 p2 : List ℚ) : ℚ :=
  listMean (List.zipWith (fun a b => |a - b| / ((|a| + |b|) / 2)) p1 p2)

/-- `df.loc[:t, :]` on a chronologically sorted hourly frame: the rows
whose timestamp is at most `t` (pandas label slicing is inclusive). -/
def sliceUpTo (df : List Row) (t : Nat) : List Row :=
  df.filter (fun r => decide (r.ts ≤ t))

/-- `pd.concat([df_train, df_test.loc[:date + 23h, :]])`
(run.py line 96): the unmasked Available Data Window for test day
`date`. -/
def windowRaw (df_train df_test : List Row) (date : Nat) : List Row :=
  df_train ++ sliceUpTo df_test (date + 23)

/-- `df.loc[lo:hi, 'Price'] = np.NaN` (run.py line 97): overwrite the
price field of every row whose timestamp lies in `[lo, hi]` with NaN;
timestamps and covariates are untouched. -/
def maskPriceRange (df : List Row) (lo hi : Nat) : List Row :=
  df.map (fun r =>
    if lo ≤ r.ts ∧ r.ts ≤ hi then { r with price := none } else r)

/-- `data_available` of run.py lines 96–97: the concatenated window
with the price of the 24 hours of `date` masked to NaN. -/
def data_available (df_train df_test : List Row) (date : Nat) : List Row :=
  maskPriceRange (windowRaw df_train df_test date) date (date + 23)

/-- The external Model (`LEAR.recalibrate_and_forecast_next_day`):
given the data window, the target day and the calibration window, it
returns the list of hourly predictions. -/
abbrev Model := List Row → Nat → Nat → List ℚ

/-- The Python exceptions that the script's own lines can raise. -/
inductive PyError
  /-- numpy `ValueError` from `reshape(-1, 24)` at run.py line 125 when
  the test length is not a multiple of 24. -/
  | valueErrorReshape
  /-- pandas `ValueError` from `forecast.loc[date, :] = Yp` at run.py
  line 103 when `Yp` does not hold exactly 24 values. -/
  | valueErrorSetRowLength
deriving DecidableEq

/-- `str(e)` of the modelled exceptions (the exact numpy/pandas wording
is abstracted; no claim depends on the text). -/
def errStr : PyError → String
  | .valueErrorReshape => "ValueError: cannot reshape array into shape (-1, 24)"
  | .valueErrorSetRowLength => "ValueError: setting a row with a mismatched number of values"

/-- `handle_error` (run.py lines 139–148): build the message that is
printed and logged.  Note the f-string interpolates `handle_error`'s own
function name, not the failing day. -/
def handle_error_message (e : PyError) : String :=
  "An error occurred in run.py - handle_error: " ++ errStr e

/-- `create_forecast_file_name` (run.py lines 81–83). -/
def create_forecast_file_name (dataset : String) (years_test calibration_window : Nat) : String :=
  "fc_nl_dat" ++ dataset ++ "_YT" ++ toString years_test ++
    "_CW" ++ toString calibration_window ++ ".csv"

/-- `create_forecast_file_path` (run.py lines 85–88):
`os.path.join('.', 'experimental_files', name)`. -/
def create_forecast_file_path (dataset : String) (years_test calibration_window : Nat) : String :=
  "./experimental_files" ++ "/" ++ create_forecast_file_name dataset years_test calibration_window

/-- The forecast column labels `[f'h0', …, 'h23']` (run.py line 124). -/
def forecastColumns : List String :=
  (List.range 24).map (fun k => "h" ++ toString k)

/-- The mutable state of the daily loop: the two input series, the
forecast index (`forecast_dates`, run.py line 128), the forecast matrix
rows (`none` = still the initial NaN row), the real-value matrix and
the progress records `(date, smape, mae)` emitted so far (run.py lines
106–108). -/
structure RunState where
  df_train : List Row
  df_test : List Row
  dates : List Nat
  forecast : List (Option (List ℚ))
  realValues : List (List ℚ)
  progress : List (Nat × ℚ × ℚ)
deriving DecidableEq

/-- `forecast.loc[date, :] = yp` (run.py line 103): overwrite the row
whose index label equals `date` (every row with that label; the labels
of an actual run are distinct). -/
def writeRow : List Nat → List (Option (List ℚ)) → Nat → List ℚ → List (Option (List ℚ))
  | _, [], _, _ => []
  | [], rs, _, _ => rs
  | d :: ds, r :: rs, date, yp =>
      (if d = date then some yp else r) :: writeRow ds rs date yp

/-- `frame.loc[:date]` on a frame indexed by `dates` (run.py lines
104–105): the rows whose index label is at most `date`. -/
def sliceByDate {α : Type} (dates : List Nat) (rows : List α) (date : Nat) : List α :=
  ((dates.zip rows).filter (fun p => decide (p.1 ≤ date))).map Prod.snd

/-- `.values` of a forecast row: a written row yields its 24 values; an
unwritten row is still all-NaN.  In every reachable metric computation
the sliced prefix holds only written rows (proved below), so the value
chosen for `none` is never observed. -/
def rowVals : Option (List ℚ) → List ℚ
  | none => []
  | some v => v

/-- The successful body of `process_date` after the model call
(run.py lines 103–108): write the row for `date`, then recompute the
running metrics over `forecast.loc[:date]` against
`real_values.loc[:date]` and append the progress record. -/
def stepOk (s : RunState) (date : Nat) (yp : List ℚ) : RunState :=
  let forecast' := writeRow s.dates s.forecast date yp
  let predVals := ((sliceByDate s.dates forecast' date).map rowVals).flatten
  let realVals := (sliceByDate s.dates s.realValues date).flatten
  { s with
    forecast := forecast',
    progress := s.progress ++
      [(date, sMAPE predVals realVals * 100, MAE predVals realVals)] }

/-- `process_date` (run.py lines 90–108): build the masked window,
invoke the model, write the forecast row (pandas raises when the value
count is not 24) and record the running metrics.  No state is modified
when the row assignment raises. -/
def process_date (model : Model) (calibration_window : Nat) (s : RunState)
    (date : Nat) : Except PyError RunState :=
  let dataAvail := data_available s.df_train s.df_test date
  let yp := model dataAvail date calibration_window
  if yp.length = 24 then
    Except.ok (stepOk s date yp)
  else
    Except.error PyError.valueErrorSetRowLength

/-- The daily loop `for date in forecast_dates` (run.py lines 131–132):
process the dates in order; the first exception aborts the loop,
leaving the state written so far. -/
def processDates (model : Model) (calibration_window : Nat) :
    List Nat → RunState → RunState × Option PyError
  | [], s => (s, none)
  | d :: ds, s =>
      match process_date model calibration_window s d with
      | .ok s' => processDates model calibration_window ds s'
      | .error e => (s, some e)

/-- The loop state after the first `k` test days (the state of the run
"during" `main`'s loop): run the loop on the first `k` forecast
dates. -/
def stateAfterDays (model : Model) (calibration_window : Nat) (dates : List Nat)
    (s0 : RunState) (k : Nat) : RunState :=
  (processDates model calibration_window (dates.take k) s0).1

/-- `forecast.index` = `df_test.index[::24]` (run.py lines 124, 128). -/
def forecastDatesOf (df_test : List Row) : List Nat :=
  every24 (df_test.map Row.ts)

/-- The state right after run.py lines 124–128: all-NaN forecast matrix
indexed by the forecast dates, the given real-value matrix, no progress
records. -/
def mkInit (df_train df_test : List Row) (dates : List Nat)
    (rv : List (List ℚ)) : RunState :=
  { df_train := df_train, df_test := df_test, dates := dates,
    forecast := dates.map (fun _ => none), realValues := rv, progress := [] }

/-- The observable outcome of `main` (run.py lines 110–137).  `main`
always returns normally: its `except` clause calls `handle_error`,
which logs and does not re-raise, so `propagated` — what `main` would
re-raise to its caller — is `none` in every branch, and `savedFiles`
records the files written by the run (the script contains no
`to_csv`/write call, so no branch appends to it). -/
structure MainOutcome where
  finalState : RunState
  forecastFilePath : String
  savedFiles : List String
  errorLogged : Option String
  propagated : Option PyError
deriving DecidableEq

/-- `main` (run.py lines 110–137) with the external `read_data` result
supplied as `df_train`/`df_test` and the external model supplied as
`model`: compute the forecast file path (line 122), build the forecast
matrix index (line 124), reshape the test prices into the real-value
matrix (lines 125–126, raising when the test length is not a multiple
of 24), run the daily loop (lines 131–132), and catch any exception in
`handle_error` (lines 136–137). -/
def mainRun (model : Model) (dataset : String) (years_test calibration_window : Nat)
    (df_train df_test : List Row) : MainOutcome :=
  let path := create_forecast_file_path dataset years_test calibration_window
  let dates := forecastDatesOf df_test
  if df_test.length % 24 = 0 then
    let rv := chunk24 (df_test.map (fun r => r.price.getD 0))
    let s0 := mkInit df_train df_test dates rv
    match processDates model calibration_window dates s0 with
    | (s, none) =>
        { finalState := s, forecastFilePath := path, savedFiles := [],
          errorLogged := none, propagated := none }
    | (s, some e) =>
        { finalState := s, forecastFilePath := path, savedFiles := [],
          errorLogged := some (handle_error_message e), propagated := none }
  else
    { finalState := mkInit df_train df_test dates [],
      forecastFilePath := path, savedFiles := [],
      errorLogged := some (handle_error_message PyError.valueErrorReshape),
      propagated := none }

/-- The model's prediction for test day `d`, as `process_date` computes
it (the window depends only on the two immutable input series). -/
def dayOutput (model : Model) (calibration_window : Nat)
    (df_train df_test : List Row) (d : Nat) : List ℚ :=
  model (data_available df_train df_test d) d calibration_window

/-- The progress record the loop emits for day index `i`: the day's
date and the running sMAPE (as a percentage) and MAE recomputed over
the prefix of days `0 … i`. -/
def progEntry (model : Model) (cw : Nat) (tr te : List Row)
    (dates : List Nat) (rv : List (List ℚ)) (i : Nat) : Nat × ℚ × ℚ :=
  (dates.getD i 0,
   sMAPE (((dates.take (i + 1)).map (dayOutput model cw tr te)).flatten)
         ((rv.take (i + 1)).flatten) * 100,
   MAE (((dates.take (i + 1)).map (dayOutput model cw tr te)).flatten)
       ((rv.take (i + 1)).flatten))

/-- The loop state after the first `k` days have completed: rows
`0 … k-1` of the forecast matrix hold the model outputs, the remaining
rows are still NaN, and one progress record exists per completed
day. -/
def closedState (model : Model) (cw : Nat) (tr te : List Row)
    (dates : List Nat) (rv : List (List ℚ)) (k : Nat) : RunState :=
  { df_train := tr, df_test := te, dates := dates, realValues := rv,
    forecast := (dates.take k).map (fun d => some (dayOutput model cw tr te d))
      ++ List.replicate (dates.length - k) none,
    progress := (List.range k).map (progEntry model cw tr te dates rv) }


/-- A 24-hour test/train day starting at hour `start` with constant
price `p` and one covariate column, used to evaluate the engine on
concrete inputs. -/
def mkDay (start : Nat) (p : ℚ) : List Row :=
  (List.range 24).map (fun i => { ts := start + i, price := some p, covariates := [p] })

/-- Two days of training history (hours 0–47). -/
def trainW : List Row := mkDay 0 3 ++ mkDay 24 4

/-- A one-day test period (hours 48–71). -/
def testW1 : List Row := mkDay 48 5

/-- A second test day (hours 72–95). -/
def testW2 : List Row := mkDay 72 6

/-- A model returning a constant 24-hour forecast. -/
def modelC : Model := fun _ _ _ => List.replicate 24 5

/-- A model returning 23 values (one too few) on day 72 and a proper
24-value forecast on any other day. -/
def model23 : Model := fun _ d _ =>
  if d = 72 then List.replicate 23 9 else List.replicate 24 9

/-! ### Helper lemmas about the label-based frame operations -/

theorem writeRow_of_not_mem (dates : List Nat) (rows : List (Option (List ℚ)))
    (date : Nat) (yp : List ℚ) (h : date ∉ dates) :
    writeRow dates rows date yp = rows := by
  induction dates generalizing rows with
  | nil => cases rows <;> simp [writeRow]
  | cons d ds ih =>
    cases rows with
    | nil => simp [writeRow]
    | cons r rs =>
      simp only [List.mem_cons, not_or] at h
      have hne : ¬d = date := fun hd => h.1 hd.symm
      simp only [writeRow, if_neg hne]
      rw [ih rs h.2]

theorem writeRow_eq_set (dates : List Nat) (rows : List (Option (List ℚ)))
    (k : Nat) (hk : k < dates.length)
    (hs : List.Pairwise (fun a b => a < b) dates) (yp : List ℚ) :
    writeRow dates rows (dates.get ⟨k, hk⟩) yp = rows.set k (some yp) := by
  induction dates generalizing rows k with
  | nil => simp at hk
  | cons d ds ih =>
    rw [List.pairwise_cons] at hs
    cases rows with
    | nil => cases k <;> simp [writeRow]
    | cons r rs =>
      cases k with
      | zero =>
        have hnm : d ∉ ds := fun hmem => lt_irrefl d (hs.1 d hmem)
        show (if d = d then some yp else r) :: writeRow ds rs d yp = some yp :: rs
        rw [if_pos rfl, writeRow_of_not_mem ds rs d yp hnm]
      | succ k =>
        have hk' : k < ds.length := by simpa using hk
        have hmem : ds.get ⟨k, hk'⟩ ∈ ds := List.get_mem ds k hk'
        have hne : d ≠ ds.get ⟨k, hk'⟩ := ne_of_lt (hs.1 _ hmem)
        simp only [List.get, writeRow, if_neg hne, List.set]
        rw [ih rs k hk' hs.2]

theorem sliceByDate_take {α : Type} (dates : List Nat) (rows : List α) (k : Nat)
    (hk : k < dates.length)
    (hs : List.Pairwise (fun a b => a < b) dates)
    (hl : dates.length = rows.length) :
    sliceByDate dates rows (dates.get ⟨k, hk⟩) = rows.take (k + 1) := by
  induction dates generalizing rows k with
  | nil => simp at hk
  | cons d ds ih =>
    rw [List.pairwise_cons] at hs
    cases rows with
    | nil => simp at hl
    | cons r rs =>
      cases k with
      | zero =>
        have htail : List.filter (fun p => decide (p.1 ≤ d)) (ds.zip rs) = [] := by
          rw [List.filter_eq_nil_iff]
          rintro ⟨a, b⟩ hp
          have ha : a ∈ ds := (List.of_mem_zip hp).1
          simp only [decide_eq_true_eq]
          exact not_le_of_lt (hs.1 a ha)
        simp [sliceByDate, List.filter_cons, htail]
      | succ k =>
        have hk' : k < ds.length := by simpa using hk
        have hget : (d :: ds).get ⟨k + 1, hk⟩ = ds.get ⟨k, hk'⟩ := rfl
        have hmem : ds.get ⟨k, hk'⟩ ∈ ds := List.get_mem ds k hk'
        have hd : d ≤ ds.get ⟨k, hk'⟩ := le_of_lt (hs.1 _ hmem)
        have hl' : ds.length = rs.length := by simpa using hl
        simp only [hget, sliceByDate, List.zip_cons_cons, List.filter_cons,
          decide_eq_true_eq, if_pos hd, List.map_cons]
        rw [show List.map Prod.snd
              (List.filter (fun p => decide (p.1 ≤ ds.get ⟨k, hk'⟩)) (ds.zip rs))
            = sliceByDate ds rs (ds.get ⟨k, hk'⟩) from rfl]
        rw [ih rs k hk' hs.2 hl']
        rfl

theorem set_append_len {α : Type} (l₁ : List α) (x : α) (l₂ : List α) (y : α) :
    (l₁ ++ x :: l₂).set l₁.length y = l₁ ++ y :: l₂ := by
  induction l₁ with
  | nil => rfl
  | cons a l ih => simp [List.set, ih]

theorem map_rowVals_some (l : List (List ℚ)) :
    (l.map some).map rowVals = l := by
  rw [List.map_map]
  have : rowVals ∘ some = id := by
    funext v; rfl
  rw [this, List.map_id]

theorem writeRow_length (dates : List Nat) (rows : List (Option (List ℚ)))
    (date : Nat) (yp : List ℚ) (h : rows.length ≤ dates.length) :
    (writeRow dates rows date yp).length = rows.length := by
  induction dates generalizing rows with
  | nil => cases rows with
    | nil => rfl
    | cons r rs => simp at h
  | cons d ds ih =>
    cases rows with
    | nil => rfl
    | cons r rs =>
      simp only [writeRow, List.length_cons]
      rw [ih rs (by simpa using h)]

/-! ### Closed form of the loop state after `k` completed days -/

@[simp] theorem closedState_df_train (model : Model) (cw : Nat) (tr te : List Row)
    (dates : List Nat) (rv : List (List ℚ)) (k : Nat) :
    (closedState model cw tr te dates rv k).df_train = tr := rfl

@[simp] theorem closedState_df_test (model : Model) (cw : Nat) (tr te : List Row)
    (dates : List Nat) (rv : List (List ℚ)) (k : Nat) :
    (closedState model cw tr te dates rv k).df_test = te := rfl

@[simp] theorem closedState_dates (model : Model) (cw : Nat) (tr te : List Row)
    (dates : List Nat) (rv : List (List ℚ)) (k : Nat) :
    (closedState model cw tr te dates rv k).dates = dates := rfl

@[simp] theorem closedState_realValues (model : Model) (cw : Nat) (tr te : List Row)
    (dates : List Nat) (rv : List (List ℚ)) (k : Nat) :
    (closedState model cw tr te dates rv k).realValues = rv := rfl

theorem map_fun_none {α : Type} (l : List α) :
    l.map (fun _ => (none : Option (List ℚ))) = List.replicate l.length none := by
  induction l with
  | nil => rfl
  | cons x xs ih => simp [List.replicate_succ, ih]

theorem set_append_len' {α : Type} (l₁ : List α) (x : α) (l₂ : List α) (y : α)
    (n : Nat) (hn : n = l₁.length) :
    (l₁ ++ x :: l₂).set n y = l₁ ++ y :: l₂ := by
  subst hn; exact set_append_len l₁ x l₂ y

theorem take_append_len {α : Type} (l₁ l₂ : List α) (n : Nat) (hn : n = l₁.length) :
    (l₁ ++ l₂).take n = l₁ := by
  subst hn; exact List.take_left l₁ l₂

theorem stepOk_closed (model : Model) (cw : Nat) (tr te : List Row)
    (dates : List Nat) (rv : List (List ℚ)) (k : Nat) (hk : k < dates.length)
    (hs : List.Pairwise (fun a b => a < b) dates)
    (hrv : rv.length = dates.length) :
    stepOk (closedState model cw tr te dates rv k) (dates.get ⟨k, hk⟩)
        (dayOutput model cw tr te (dates.get ⟨k, hk⟩)) =
      closedState model cw tr te dates rv (k + 1) := by
  have hkle : k ≤ dates.length := le_of_lt hk
  have houtlen : ((dates.take k).map
      (fun d => some (dayOutput model cw tr te d))).length = k := by
    simp [List.length_take, min_eq_left hkle]
  have htake : dates.take (k + 1) = dates.take k ++ [dates.get ⟨k, hk⟩] := by
    rw [List.take_succ, List.getElem?_eq_getElem hk]
    rfl
  have hrepl : List.replicate (dates.length - k) (none : Option (List ℚ))
      = none :: List.replicate (dates.length - (k + 1)) none := by
    rw [show dates.length - k = (dates.length - (k + 1)) + 1 by omega,
      List.replicate_succ]
  have hset : ((dates.take k).map (fun d => some (dayOutput model cw tr te d))
        ++ List.replicate (dates.length - k) (none : Option (List ℚ))).set k
        (some (dayOutput model cw tr te (dates.get ⟨k, hk⟩)))
      = (dates.take (k + 1)).map (fun d => some (dayOutput model cw tr te d))
        ++ List.replicate (dates.length - (k + 1)) none := by
    rw [hrepl, set_append_len' _ _ _ _ k houtlen.symm, htake, List.map_append]
    simp
  have hw : writeRow dates
      ((dates.take k).map (fun d => some (dayOutput model cw tr te d))
        ++ List.replicate (dates.length - k) none)
      (dates.get ⟨k, hk⟩) (dayOutput model cw tr te (dates.get ⟨k, hk⟩))
      = (dates.take (k + 1)).map (fun d => some (dayOutput model cw tr te d))
        ++ List.replicate (dates.length - (k + 1)) none := by
    rw [writeRow_eq_set dates _ k hk hs, hset]
  have hflen : dates.length
      = ((dates.take (k + 1)).map (fun d => some (dayOutput model cw tr te d))
        ++ List.replicate (dates.length - (k + 1)) (none : Option (List ℚ))).length := by
    simp [List.length_take]
    omega
  have hf_take : ((dates.take (k + 1)).map (fun d => some (dayOutput model cw tr te d))
      ++ List.replicate (dates.length - (k + 1)) (none : Option (List ℚ))).take (k + 1)
      = (dates.take (k + 1)).map (fun d => some (dayOutput model cw tr te d)) := by
    apply take_append_len
    simp [List.length_take]
    omega
  have hsl_f : sliceByDate dates
      ((dates.take (k + 1)).map (fun d => some (dayOutput model cw tr te d))
        ++ List.replicate (dates.length - (k + 1)) none)
      (dates.get ⟨k, hk⟩)
      = (dates.take (k + 1)).map (fun d => some (dayOutput model cw tr te d)) := by
    rw [sliceByDate_take dates _ k hk hs hflen, hf_take]
  have hsl_r : sliceByDate dates rv (dates.get ⟨k, hk⟩) = rv.take (k + 1) :=
    sliceByDate_take dates rv k hk hs hrv.symm
  have hpred : ((dates.take (k + 1)).map
        (fun d => some (dayOutput model cw tr te d))).map rowVals
      = (dates.take (k + 1)).map (dayOutput model cw tr te) := by
    have h1 : (dates.take (k + 1)).map (fun d => some (dayOutput model cw tr te d))
        = ((dates.take (k + 1)).map (dayOutput model cw tr te)).map some := by
      rw [List.map_map]
      rfl
    rw [h1, map_rowVals_some]
  have hgd : dates.getD k 0 = dates.get ⟨k, hk⟩ := by
    rw [List.getD_eq_getElem?_getD, List.getElem?_eq_getElem hk]
    rfl
  simp only [stepOk, closedState, closedState_dates]
  rw [hw, hsl_f, hsl_r, hpred]
  rw [List.range_succ, List.map_append]
  simp only [List.map_cons, List.map_nil, progEntry, hgd]

theorem processDates_append (model : Model) (cw : Nat) (l₁ l₂ : List Nat)
    (s : RunState) (h : (processDates model cw l₁ s).2 = none) :
    processDates model cw (l₁ ++ l₂) s =
      processDates model cw l₂ (processDates model cw l₁ s).1 := by
  induction l₁ generalizing s with
  | nil => rfl
  | cons d ds ih =>
    cases hpd : process_date model cw s d with
    | ok s' =>
      have hl : processDates model cw (d :: ds) s = processDates model cw ds s' := by
        simp [processDates, hpd]
      have hl2 : processDates model cw ((d :: ds) ++ l₂) s
          = processDates model cw (ds ++ l₂) s' := by
        simp [processDates, hpd]
      rw [hl] at h
      rw [hl2, hl, ih s' h]
    | error e =>
      have hl : processDates model cw (d :: ds) s = (s, some e) := by
        simp [processDates, hpd]
      rw [hl] at h
      simp at h

theorem processDates_take_closed (model : Model) (cw : Nat) (tr te : List Row)
    (dates : List Nat) (rv : List (List ℚ))
    (hs : List.Pairwise (fun a b => a < b) dates)
    (hrv : rv.length = dates.length)
    (k : Nat) (hk : k ≤ dates.length)
    (hm : ∀ d ∈ dates.take k, (model (data_available tr te d) d cw).length = 24) :
    processDates model cw (dates.take k) (mkInit tr te dates rv)
      = (closedState model cw tr te dates rv k, none) := by
  induction k with
  | zero =>
    simp [processDates, mkInit, closedState, map_fun_none, List.take_zero]
  | succ k ih =>
    have hk' : k < dates.length := hk
    have htake : dates.take (k + 1) = dates.take k ++ [dates.get ⟨k, hk'⟩] := by
      rw [List.take_succ, List.getElem?_eq_getElem hk']
      rfl
    have hm' : ∀ d ∈ dates.take k, (model (data_available tr te d) d cw).length = 24 := by
      intro d hd
      apply hm
      rw [htake]
      exact List.mem_append.mpr (Or.inl hd)
    have ihk := ih (le_of_lt hk') hm'
    have hsnd : (processDates model cw (dates.take k) (mkInit tr te dates rv)).2
        = none := by rw [ihk]
    rw [htake, processDates_append model cw _ _ _ hsnd, ihk]
    have hmem : dates.get ⟨k, hk'⟩ ∈ dates.take (k + 1) := by
      rw [htake]
      exact List.mem_append.mpr (Or.inr (List.mem_singleton.mpr rfl))
    have hlen24 : (model (data_available tr te (dates.get ⟨k, hk'⟩))
        (dates.get ⟨k, hk'⟩) cw).length = 24 := hm _ hmem
    have hpd : process_date model cw (closedState model cw tr te dates rv k)
        (dates.get ⟨k, hk'⟩)
        = Except.ok (stepOk (closedState model cw tr te dates rv k)
            (dates.get ⟨k, hk'⟩)
            (dayOutput model cw tr te (dates.get ⟨k, hk'⟩))) := by
      simp only [process_date, closedState_df_train, closedState_df_test]
      rw [if_pos hlen24]
      rfl
    simp only [processDates, hpd]
    rw [stepOk_closed model cw tr te dates rv k hk' hs hrv]

theorem stateAfterDays_closed (model : Model) (cw : Nat) (tr te : List Row)
    (dates : List Nat) (rv : List (List ℚ))
    (hs : List.Pairwise (fun a b => a < b) dates)
    (hrv : rv.length = dates.length)
    (k : Nat) (hk : k ≤ dates.length)
    (hm : ∀ d ∈ dates.take k, (model (data_available tr te d) d cw).length = 24) :
    stateAfterDays model cw dates (mkInit tr te dates rv) k
      = closedState model cw tr te dates rv k := by
  unfold stateAfterDays
  rw [processDates_take_closed model cw tr te dates rv hs hrv k hk hm]

/-! ### Facts about the forecast index and the real-value matrix shape -/

theorem every24Go_congr (fuel₁ : Nat) : ∀ (fuel₂ : Nat) (l : List Nat),
    l.length ≤ fuel₁ → l.length ≤ fuel₂ → every24Go fuel₁ l = every24Go fuel₂ l := by
  induction fuel₁ with
  | zero =>
    intro fuel₂ l h1 h2
    have hl : l = [] := List.length_eq_zero.mp (Nat.le_zero.mp h1)
    subst hl
    cases fuel₂ <;> rfl
  | succ f ih =>
    intro fuel₂ l h1 h2
    cases l with
    | nil => cases fuel₂ <;> rfl
    | cons x xs =>
      cases fuel₂ with
      | zero => simp at h2
      | succ f₂ =>
        simp only [every24Go]
        rw [ih f₂ (xs.drop 23)
          (by simp only [List.length_drop]; simp only [List.length_cons] at h1; omega)
          (by simp only [List.length_drop]; simp only [List.length_cons] at h2; omega)]

theorem every24_cons (x : Nat) (xs : List Nat) :
    every24 (x :: xs) = x :: every24 (xs.drop 23) := by
  show every24Go (x :: xs).length (x :: xs) = x :: every24Go (xs.drop 23).length (xs.drop 23)
  simp only [List.length_cons, every24Go]
  rw [every24Go_congr xs.length (xs.drop 23).length (xs.drop 23)
    (by simp only [List.length_drop]; omega) le_rfl]

theorem chunk24Go_congr (fuel₁ : Nat) : ∀ (fuel₂ : Nat) (l : List ℚ),
    l.length ≤ fuel₁ → l.length ≤ fuel₂ → chunk24Go fuel₁ l = chunk24Go fuel₂ l := by
  induction fuel₁ with
  | zero =>
    intro fuel₂ l h1 h2
    have hl : l = [] := List.length_eq_zero.mp (Nat.le_zero.mp h1)
    subst hl
    cases fuel₂ <;> rfl
  | succ f ih =>
    intro fuel₂ l h1 h2
    cases l with
    | nil => cases fuel₂ <;> rfl
    | cons x xs =>
      cases fuel₂ with
      | zero => simp at h2
      | succ f₂ =>
        simp only [chunk24Go]
        rw [ih f₂ (xs.drop 23)
          (by simp only [List.length_drop]; simp only [List.length_cons] at h1; omega)
          (by simp only [List.length_drop]; simp only [List.length_cons] at h2; omega)]

theorem chunk24_cons (x : ℚ) (xs : List ℚ) :
    chunk24 (x :: xs) = (x :: xs.take 23) :: chunk24 (xs.drop 23) := by
  show chunk24Go (x :: xs).length (x :: xs)
    = (x :: xs.take 23) :: chunk24Go (xs.drop 23).length (xs.drop 23)
  simp only [List.length_cons, chunk24Go]
  rw [chunk24Go_congr xs.length (xs.drop 23).length (xs.drop 23)
    (by simp only [List.length_drop]; omega) le_rfl]

theorem every24_sublist (fuel : Nat) :
    ∀ l : List Nat, l.length ≤ fuel → (every24 l).Sublist l := by
  induction fuel with
  | zero =>
    intro l hf
    have hl : l = [] := List.length_eq_zero.mp (Nat.le_zero.mp hf)
    subst hl
    exact List.Sublist.refl _
  | succ fuel ih =>
    intro l hf
    match l with
    | [] => exact List.Sublist.refl _
    | x :: xs =>
      rw [every24_cons]
      refine List.Sublist.cons₂ x ?_
      refine List.Sublist.trans ?_ (List.drop_sublist 23 xs)
      apply ih
      have := List.length_drop 23 xs
      simp only [List.length_cons] at hf
      omega

theorem forecastDatesOf_pairwise (te : List Row)
    (hts : List.Pairwise (fun a b => a < b) (te.map Row.ts)) :
    List.Pairwise (fun a b => a < b) (forecastDatesOf te) :=
  List.Pairwise.sublist (every24_sublist (te.map Row.ts).length _ le_rfl) hts

theorem every24_chunk24_length (fuel : Nat) :
    ∀ (l : List Nat) (m : List ℚ), l.length ≤ fuel → l.length = m.length →
      (every24 l).length = (chunk24 m).length := by
  induction fuel with
  | zero =>
    intro l m hf he
    have hl : l = [] := List.length_eq_zero.mp (Nat.le_zero.mp hf)
    subst hl
    have hm : m = [] := List.length_eq_zero.mp he.symm
    subst hm
    rfl
  | succ fuel ih =>
    intro l m hf he
    match l, m with
    | [], [] => rfl
    | [], y :: ys => simp at he
    | x :: xs, [] => simp at he
    | x :: xs, y :: ys =>
      rw [every24_cons, chunk24_cons]
      simp only [List.length_cons]
      have hxs : (xs.drop 23).length ≤ fuel := by
        have := List.length_drop 23 xs
        simp only [List.length_cons] at hf
        omega
      have hlen : (xs.drop 23).length = (ys.drop 23).length := by
        simp only [List.length_drop]
        simp only [List.length_cons] at he
        omega
      rw [ih (xs.drop 23) (ys.drop 23) hxs hlen]

theorem realValues_length (te : List Row) :
    (chunk24 (te.map (fun r => r.price.getD 0))).length = (forecastDatesOf te).length := by
  unfold forecastDatesOf
  exact (every24_chunk24_length (te.map Row.ts).length (te.map Row.ts)
    (te.map (fun r => r.price.getD 0)) le_rfl (by simp)).symm

/-! ### Characterizations of `mainRun`'s three outcomes -/

theorem mainRun_misaligned (model : Model) (dataset : String)
    (years_test calibration_window : Nat) (tr te : List Row)
    (h : ¬te.length % 24 = 0) :
    mainRun model dataset years_test calibration_window tr te =
      { finalState := mkInit tr te (forecastDatesOf te) [],
        forecastFilePath := create_forecast_file_path dataset years_test calibration_window,
        savedFiles := [],
        errorLogged := some (handle_error_message PyError.valueErrorReshape),
        propagated := none } := by
  simp only [mainRun, if_neg h]

theorem mainRun_success (model : Model) (dataset : String)
    (years_test calibration_window : Nat) (tr te : List Row)
    (halign : te.length % 24 = 0)
    (hs : List.Pairwise (fun a b => a < b) (forecastDatesOf te))
    (hm : ∀ d ∈ forecastDatesOf te,
      (model (data_available tr te d) d calibration_window).length = 24) :
    mainRun model dataset years_test calibration_window tr te =
      { finalState := closedState model calibration_window tr te (forecastDatesOf te)
          (chunk24 (te.map (fun r => r.price.getD 0))) (forecastDatesOf te).length,
        forecastFilePath := create_forecast_file_path dataset years_test calibration_window,
        savedFiles := [], errorLogged := none, propagated := none } := by
  have hpd : processDates model calibration_window (forecastDatesOf te)
      (mkInit tr te (forecastDatesOf te) (chunk24 (te.map (fun r => r.price.getD 0))))
      = (closedState model calibration_window tr te (forecastDatesOf te)
          (chunk24 (te.map (fun r => r.price.getD 0))) (forecastDatesOf te).length,
         none) := by
    have := processDates_take_closed model calibration_window tr te
      (forecastDatesOf te) (chunk24 (te.map (fun r => r.price.getD 0)))
      hs (realValues_length te) (forecastDatesOf te).length le_rfl
      (by rw [List.take_length]; exact hm)
    rwa [List.take_length] at this
  simp only [mainRun, if_pos halign, hpd]

theorem mainRun_failAt (model : Model) (dataset : String)
    (years_test calibration_window : Nat) (tr te : List Row)
    (halign : te.length % 24 = 0)
    (hs : List.Pairwise (fun a b => a < b) (forecastDatesOf te))
    (j : Nat) (hj : j < (forecastDatesOf te).length)
    (hok : ∀ d ∈ (forecastDatesOf te).take j,
      (model (data_available tr te d) d calibration_window).length = 24)
    (hbad : ¬(model (data_available tr te ((forecastDatesOf te).get ⟨j, hj⟩))
        ((forecastDatesOf te).get ⟨j, hj⟩) calibration_window).length = 24) :
    mainRun model dataset years_test calibration_window tr te =
      { finalState := closedState model calibration_window tr te (forecastDatesOf te)
          (chunk24 (te.map (fun r => r.price.getD 0))) j,
        forecastFilePath := create_forecast_file_path dataset years_test calibration_window,
        savedFiles := [],
        errorLogged := some (handle_error_message PyError.valueErrorSetRowLength),
        propagated := none } := by
  have hclosed := processDates_take_closed model calibration_window tr te
    (forecastDatesOf te) (chunk24 (te.map (fun r => r.price.getD 0)))
    hs (realValues_length te) j (le_of_lt hj) hok
  have hsplit : forecastDatesOf te
      = (forecastDatesOf te).take j
        ++ ((forecastDatesOf te).get ⟨j, hj⟩ :: (forecastDatesOf te).drop (j + 1)) := by
    conv_lhs => rw [← List.take_append_drop j (forecastDatesOf te)]
    rw [List.drop_eq_get_cons hj]
  have hsnd : (processDates model calibration_window ((forecastDatesOf te).take j)
      (mkInit tr te (forecastDatesOf te)
        (chunk24 (te.map (fun r => r.price.getD 0))))).2 = none := by
    rw [hclosed]
  have hpdbad : process_date model calibration_window
      (closedState model calibration_window tr te (forecastDatesOf te)
        (chunk24 (te.map (fun r => r.price.getD 0))) j)
      ((forecastDatesOf te).get ⟨j, hj⟩)
      = Except.error PyError.valueErrorSetRowLength := by
    simp only [process_date, closedState_df_train, closedState_df_test]
    rw [if_neg hbad]
  have h1 : processDates model calibration_window
      ((forecastDatesOf te).take j
        ++ ((forecastDatesOf te).get ⟨j, hj⟩ :: (forecastDatesOf te).drop (j + 1)))
      (mkInit tr te (forecastDatesOf te) (chunk24 (te.map (fun r => r.price.getD 0))))
      = (closedState model calibration_window tr te (forecastDatesOf te)
          (chunk24 (te.map (fun r => r.price.getD 0))) j,
         some PyError.valueErrorSetRowLength) := by
    rw [processDates_append model calibration_window _ _ _ hsnd, hclosed]
    simp only [processDates, hpdbad]
  rw [← hsplit] at h1
  simp only [mainRun, if_pos halign, h1]

/-! ### Reading individual rows of the closed-form state -/

theorem closed_forecast_getD_lt (model : Model) (cw : Nat) (tr te : List Row)
    (dates : List Nat) (rv : List (List ℚ)) (j i : Nat) (hj : j ≤ dates.length)
    (hi : i < j) :
    (closedState model cw tr te dates rv j).forecast.getD i none
      = some (dayOutput model cw tr te (dates.getD i 0)) := by
  have hin : i < dates.length := lt_of_lt_of_le hi hj
  have hlen : ((dates.take j).map
      (fun d => some (dayOutput model cw tr te d))).length = j := by
    simp [List.length_take]
    omega
  simp only [closedState]
  rw [List.getD_eq_getElem?_getD, List.getElem?_append, hlen, if_pos hi,
    List.getElem?_map, List.getElem?_take, if_pos hi, List.getElem?_eq_getElem hin]
  rw [List.getD_eq_getElem?_getD, List.getElem?_eq_getElem hin]
  rfl

theorem closed_forecast_getD_ge (model : Model) (cw : Nat) (tr te : List Row)
    (dates : List Nat) (rv : List (List ℚ)) (j i : Nat) (hj : j ≤ dates.length)
    (hi : j ≤ i) :
    (closedState model cw tr te dates rv j).forecast.getD i none = none := by
  have hlen : ((dates.take j).map
      (fun d => some (dayOutput model cw tr te d))).length = j := by
    simp [List.length_take]
    omega
  simp only [closedState]
  rw [List.getD_eq_getElem?_getD, List.getElem?_append, hlen,
    if_neg (by omega : ¬i < j)]
  by_cases h2 : i - j < dates.length - j
  · rw [List.getElem?_replicate, if_pos h2]
    rfl
  · rw [List.getElem?_replicate, if_neg h2]
    rfl

theorem closed_progress_length (model : Model) (cw : Nat) (tr te : List Row)
    (dates : List Nat) (rv : List (List ℚ)) (j : Nat) :
    (closedState model cw tr te dates rv j).progress.length = j := by
  simp [closedState]

theorem closed_forecast_set (model : Model) (cw : Nat) (tr te : List Row)
    (dates : List Nat) (rv : List (List ℚ)) (k : Nat) (hk : k < dates.length) :
    (closedState model cw tr te dates rv (k + 1)).forecast
      = (closedState model cw tr te dates rv k).forecast.set k
          (some (dayOutput model cw tr te (dates.getD k 0))) := by
  have hkle : k ≤ dates.length := le_of_lt hk
  have houtlen : ((dates.take k).map
      (fun d => some (dayOutput model cw tr te d))).length = k := by
    simp [List.length_take, min_eq_left hkle]
  have htake : dates.take (k + 1) = dates.take k ++ [dates.get ⟨k, hk⟩] := by
    rw [List.take_succ, List.getElem?_eq_getElem hk]
    rfl
  have hgd : dates.getD k 0 = dates.get ⟨k, hk⟩ := by
    rw [List.getD_eq_getElem?_getD, List.getElem?_eq_getElem hk]
    rfl
  have hrepl : List.replicate (dates.length - k) (none : Option (List ℚ))
      = none :: List.replicate (dates.length - (k + 1)) none := by
    rw [show dates.length - k = (dates.length - (k + 1)) + 1 by omega,
      List.replicate_succ]
  simp only [closedState, hgd]
  rw [hrepl, set_append_len' _ _ _ _ k houtlen.symm, htake, List.map_append]
  simp

/-! ### The claims -/

/-- C1: causal validity of the data window.  For a test day `date`, the
window `process_date` hands to the model — `data_available` (run.py
lines 96–97), the concatenation of the training series with the test
rows up to the last hour of `date`, with `date`'s 24 prices overwritten
to NaN — contains no non-masked price at any timestamp at or after
`date`'s first hour, provided every training timestamp precedes `date`
(train precedes test, §3 of the spec). -/
theorem C1_causal_validity (df_train df_test : List Row) (date : Nat)
    (htrain : ∀ r ∈ df_train, r.ts < date) :
    ∀ r ∈ data_available df_train df_test date, date ≤ r.ts → r.price = none := by
  intro r hr hge
  simp only [data_available, maskPriceRange, List.mem_map] at hr
  obtain ⟨r0, hr0, hmask⟩ := hr
  by_cases hc : date ≤ r0.ts ∧ r0.ts ≤ date + 23
  · rw [if_pos hc] at hmask
    rw [← hmask]
  · rw [if_neg hc] at hmask
    subst hmask
    simp only [windowRaw, List.mem_append] at hr0
    cases hr0 with
    | inl h => exact absurd hge (not_le_of_lt (htrain r0 h))
    | inr h =>
      simp only [sliceUpTo, List.mem_filter, decide_eq_true_eq] at h
      exact absurd ⟨hge, h.2⟩ hc

/-- Witness for C1: a concrete two-day training series before test day
48; every row of the masked window at or after hour 48 has a NaN
price. -/
theorem C1_causal_validity_w :
    (∀ r ∈ trainW, r.ts < 48) ∧
      (∀ r ∈ data_available trainW testW1 48, 48 ≤ r.ts → r.price = none) :=
  ⟨by decide, C1_causal_validity trainW testW1 48 (by decide)⟩

/-- C7: the masking step changes only the price field, and only on the
24 hours of the target day: at every index of the window the timestamp
and the covariates are those of the unmasked window, the price is NaN
exactly on timestamps in `[date, date + 23]`, and every other row's
price is unchanged. -/
theorem C7_mask_only_price (df_train df_test : List Row) (date i : Nat)
    (hi : i < (windowRaw df_train df_test date).length) :
    (data_available df_train df_test date).length
      = (windowRaw df_train df_test date).length ∧
    ((data_available df_train df_test date).getD i dRow).ts
      = ((windowRaw df_train df_test date).getD i dRow).ts ∧
    ((data_available df_train df_test date).getD i dRow).covariates
      = ((windowRaw df_train df_test date).getD i dRow).covariates ∧
    (date ≤ ((windowRaw df_train df_test date).getD i dRow).ts ∧
        ((windowRaw df_train df_test date).getD i dRow).ts ≤ date + 23 →
      ((data_available df_train df_test date).getD i dRow).price = none) ∧
    (¬(date ≤ ((windowRaw df_train df_test date).getD i dRow).ts ∧
        ((windowRaw df_train df_test date).getD i dRow).ts ≤ date + 23) →
      ((data_available df_train df_test date).getD i dRow).price
        = ((windowRaw df_train df_test date).getD i dRow).price) := by
  have key : (data_available df_train df_test date).getD i dRow
      = if date ≤ ((windowRaw df_train df_test date).getD i dRow).ts ∧
            ((windowRaw df_train df_test date).getD i dRow).ts ≤ date + 23
          then { (windowRaw df_train df_test date).getD i dRow with price := none }
          else (windowRaw df_train df_test date).getD i dRow := by
    simp only [data_available, maskPriceRange]
    rw [List.getD_eq_getElem?_getD, List.getElem?_map, List.getElem?_eq_getElem hi]
    rw [List.getD_eq_getElem?_getD, List.getElem?_eq_getElem hi]
    rfl
  refine ⟨by simp [data_available, maskPriceRange], ?_, ?_, ?_, ?_⟩
  · rw [key]
    by_cases hc : date ≤ ((windowRaw df_train df_test date).getD i dRow).ts ∧
        ((windowRaw df_train df_test date).getD i dRow).ts ≤ date + 23
    · rw [if_pos hc]
    · rw [if_neg hc]
  · rw [key]
    by_cases hc : date ≤ ((windowRaw df_train df_test date).getD i dRow).ts ∧
        ((windowRaw df_train df_test date).getD i dRow).ts ≤ date + 23
    · rw [if_pos hc]
    · rw [if_neg hc]
  · intro hc
    rw [key, if_pos hc]
  · intro hc
    rw [key, if_neg hc]

/-- Witness for C7 at index 50 of the concrete window for test day 48
(a row inside the masked day). -/
theorem C7_mask_only_price_w :
    50 < (windowRaw trainW testW1 48).length ∧
    ((data_available trainW testW1 48).length
      = (windowRaw trainW testW1 48).length ∧
    ((data_available trainW testW1 48).getD 50 dRow).ts
      = ((windowRaw trainW testW1 48).getD 50 dRow).ts ∧
    ((data_available trainW testW1 48).getD 50 dRow).covariates
      = ((windowRaw trainW testW1 48).getD 50 dRow).covariates ∧
    (48 ≤ ((windowRaw trainW testW1 48).getD 50 dRow).ts ∧
        ((windowRaw trainW testW1 48).getD 50 dRow).ts ≤ 48 + 23 →
      ((data_available trainW testW1 48).getD 50 dRow).price = none) ∧
    (¬(48 ≤ ((windowRaw trainW testW1 48).getD 50 dRow).ts ∧
        ((windowRaw trainW testW1 48).getD 50 dRow).ts ≤ 48 + 23) →
      ((data_available trainW testW1 48).getD 50 dRow).price
        = ((windowRaw trainW testW1 48).getD 50 dRow).price)) :=
  ⟨by decide, C7_mask_only_price trainW testW1 48 50 (by decide)⟩

/-- C10: frame effect of `process_date` — the masking happens on the
freshly concatenated window only, so a successful `process_date` leaves
both input Observation Series exactly as they were: the returned state
carries `df_train` and `df_test` through unchanged (timestamps, prices
and covariates included). -/
theorem C10_frame (model : Model) (cw : Nat) (s : RunState) (date : Nat)
    (s' : RunState) (h : process_date model cw s date = Except.ok s') :
    s'.df_train = s.df_train ∧ s'.df_test = s.df_test := by
  simp only [process_date] at h
  by_cases hl : (model (data_available s.df_train s.df_test date) date cw).length = 24
  · rw [if_pos hl] at h
    cases h
    exact ⟨rfl, rfl⟩
  · rw [if_neg hl] at h
    cases h

/-- Witness for C10: a concrete successful `process_date` call on the
one-day test state. -/
theorem C10_frame_w :
    process_date modelC 1
        (mkInit trainW testW1 (forecastDatesOf testW1)
          (chunk24 (testW1.map (fun r => r.price.getD 0)))) 48
      = Except.ok (stepOk
          (mkInit trainW testW1 (forecastDatesOf testW1)
            (chunk24 (testW1.map (fun r => r.price.getD 0)))) 48
          (List.replicate 24 5)) ∧
    ((stepOk (mkInit trainW testW1 (forecastDatesOf testW1)
          (chunk24 (testW1.map (fun r => r.price.getD 0)))) 48
        (List.replicate 24 5)).df_train
      = (mkInit trainW testW1 (forecastDatesOf testW1)
          (chunk24 (testW1.map (fun r => r.price.getD 0)))).df_train ∧
     (stepOk (mkInit trainW testW1 (forecastDatesOf testW1)
          (chunk24 (testW1.map (fun r => r.price.getD 0)))) 48
        (List.replicate 24 5)).df_test
      = (mkInit trainW testW1 (forecastDatesOf testW1)
          (chunk24 (testW1.map (fun r => r.price.getD 0)))).df_test) :=
  ⟨rfl, C10_frame modelC 1 _ 48 _ rfl⟩

/-- C4: misaligned test data fails before the daily loop.  When the
test series is not a whole number of 24-hour days, the reshape at
run.py line 125 raises (the spec's `DataAlignmentError`) before the
loop at line 131 starts: the error is logged, no progress record
exists and every forecast row is still unwritten. -/
theorem C4_alignment_before_loop (model : Model) (dataset : String)
    (years_test calibration_window : Nat) (tr te : List Row)
    (h : ¬te.length % 24 = 0) :
    (mainRun model dataset years_test calibration_window tr te).errorLogged
      = some (handle_error_message PyError.valueErrorReshape) ∧
    (mainRun model dataset years_test calibration_window tr te).finalState.progress
      = [] ∧
    ∀ row ∈ (mainRun model dataset years_test calibration_window tr te).finalState.forecast,
      row = none := by
  rw [mainRun_misaligned model dataset years_test calibration_window tr te h]
  refine ⟨rfl, rfl, ?_⟩
  intro row hrow
  simp only [mkInit, List.mem_map] at hrow
  obtain ⟨d, _, hd⟩ := hrow
  exact hd.symm

/-- Witness for C4: a 23-hour test series (one missing hour). -/
theorem C4_alignment_before_loop_w :
    ¬(testW1.take 23).length % 24 = 0 ∧
    ((mainRun modelC "PJM" 2 1 trainW (testW1.take 23)).errorLogged
      = some (handle_error_message PyError.valueErrorReshape) ∧
    (mainRun modelC "PJM" 2 1 trainW (testW1.take 23)).finalState.progress = [] ∧
    ∀ row ∈ (mainRun modelC "PJM" 2 1 trainW (testW1.take 23)).finalState.forecast,
      row = none) :=
  ⟨by decide, C4_alignment_before_loop modelC "PJM" 2 1 trainW (testW1.take 23) (by decide)⟩

/-- C2 counterexample: a model that returns 23 values on the second of
two test days.  The row assignment raises and that day's row stays
unwritten with day 1's row preserved — but the exception is NOT fatal
to the run in the claimed sense: `main`'s handler logs it and swallows
it (`propagated = none`), and no `ModelInvocationError` class exists in
the script. -/
theorem C2_cex :
    (mainRun model23 "PJM" 2 1 trainW (testW1 ++ testW2)).errorLogged
      = some (handle_error_message PyError.valueErrorSetRowLength) ∧
    (mainRun model23 "PJM" 2 1 trainW (testW1 ++ testW2)).propagated = none ∧
    (mainRun model23 "PJM" 2 1 trainW (testW1 ++ testW2)).finalState.forecast
      = [some (List.replicate 24 9), none] ∧
    (mainRun model23 "PJM" 2 1 trainW (testW1 ++ testW2)).finalState.progress.length
      = 1 := by
  refine ⟨?_, ?_, ?_, ?_⟩ <;> decide

/-- C2 (amended): if the model returns other than exactly 24 values at
test-day index `j` (behaving well before), the pandas row assignment
raises, the loop stops at day `j`: day `j`'s row and all later rows
stay unwritten, the rows of the days completed before `j` are
preserved, and the error is logged — but it is caught by `main`'s
handler and nothing is propagated to the caller; the run terminates
normally. -/
theorem C2_amended_swallowed (model : Model) (dataset : String)
    (years_test calibration_window : Nat) (tr te : List Row)
    (halign : te.length % 24 = 0)
    (hts : List.Pairwise (fun a b => a < b) (te.map Row.ts))
    (j : Nat) (hj : j < (forecastDatesOf te).length)
    (hok : ∀ d ∈ (forecastDatesOf te).take j,
      (model (data_available tr te d) d calibration_window).length = 24)
    (hbad : ¬(model (data_available tr te ((forecastDatesOf te).get ⟨j, hj⟩))
        ((forecastDatesOf te).get ⟨j, hj⟩) calibration_window).length = 24) :
    (mainRun model dataset years_test calibration_window tr te).errorLogged
      = some (handle_error_message PyError.valueErrorSetRowLength) ∧
    (mainRun model dataset years_test calibration_window tr te).propagated = none ∧
    (∀ i, i < j →
      (mainRun model dataset years_test calibration_window tr te).finalState.forecast.getD i none
        = some (dayOutput model calibration_window tr te ((forecastDatesOf te).getD i 0))) ∧
    (∀ i, j ≤ i →
      (mainRun model dataset years_test calibration_window tr te).finalState.forecast.getD i none
        = none) ∧
    (mainRun model dataset years_test calibration_window tr te).finalState.progress.length
      = j := by
  have hs := forecastDatesOf_pairwise te hts
  rw [mainRun_failAt model dataset years_test calibration_window tr te halign hs j hj hok hbad]
  refine ⟨rfl, rfl, ?_, ?_, ?_⟩
  · intro i hi
    exact closed_forecast_getD_lt model calibration_window tr te (forecastDatesOf te)
      (chunk24 (te.map (fun r => r.price.getD 0))) j i (le_of_lt hj) hi
  · intro i hi
    exact closed_forecast_getD_ge model calibration_window tr te (forecastDatesOf te)
      (chunk24 (te.map (fun r => r.price.getD 0))) j i (le_of_lt hj) hi
  · exact closed_progress_length model calibration_window tr te (forecastDatesOf te)
      (chunk24 (te.map (fun r => r.price.getD 0))) j

/-- Witness for the amended C2 at the concrete two-day run where the
model misbehaves on day index 1. -/
theorem C2_amended_swallowed_w :
    (testW1 ++ testW2).length % 24 = 0 ∧
    List.Pairwise (fun a b => a < b) ((testW1 ++ testW2).map Row.ts) ∧
    (1 < (forecastDatesOf (testW1 ++ testW2)).length) ∧
    ((mainRun model23 "PJM" 2 1 trainW (testW1 ++ testW2)).errorLogged
      = some (handle_error_message PyError.valueErrorSetRowLength) ∧
    (mainRun model23 "PJM" 2 1 trainW (testW1 ++ testW2)).propagated = none ∧
    (∀ i, i < 1 →
      (mainRun model23 "PJM" 2 1 trainW (testW1 ++ testW2)).finalState.forecast.getD i none
        = some (dayOutput model23 1 trainW (testW1 ++ testW2)
            ((forecastDatesOf (testW1 ++ testW2)).getD i 0))) ∧
    (∀ i, 1 ≤ i →
      (mainRun model23 "PJM" 2 1 trainW (testW1 ++ testW2)).finalState.forecast.getD i none
        = none) ∧
    (mainRun model23 "PJM" 2 1 trainW (testW1 ++ testW2)).finalState.progress.length
      = 1) :=
  ⟨by decide, by decide, by decide,
    C2_amended_swallowed model23 "PJM" 2 1 trainW (testW1 ++ testW2)
      (by decide) (by decide) 1 (by decide) (by decide) (by decide)⟩

/-- C3 counterexample: running with `calibration_window = 0` raises no
validation error at all — the run completes normally (nothing logged,
nothing propagated) and the model HAS been invoked: its output fills
the forecast row.  The script validates nothing before the loop. -/
theorem C3_cex :
    (mainRun modelC "PJM" 2 0 trainW testW1).errorLogged = none ∧
    (mainRun modelC "PJM" 2 0 trainW testW1).propagated = none ∧
    (mainRun modelC "PJM" 2 0 trainW testW1).finalState.forecast
      = [some (List.replicate 24 5)] := by
  refine ⟨?_, ?_, ?_⟩ <;> decide

/-- C3 (amended): the engine performs no validation of the calibration
window: with `calibration_window = 0` (or any value) no validation
error is raised, the value is passed through unchanged to the model —
which is invoked for every test day, filling every forecast row with
its output.  Enforcement of positivity is left entirely to the
model. -/
theorem C3_amended_no_validation (model : Model) (dataset : String)
    (years_test : Nat) (tr te : List Row)
    (halign : te.length % 24 = 0)
    (hts : List.Pairwise (fun a b => a < b) (te.map Row.ts))
    (hm : ∀ d ∈ forecastDatesOf te, (model (data_available tr te d) d 0).length = 24) :
    (mainRun model dataset years_test 0 tr te).errorLogged = none ∧
    (mainRun model dataset years_test 0 tr te).propagated = none ∧
    ∀ i, i < (forecastDatesOf te).length →
      (mainRun model dataset years_test 0 tr te).finalState.forecast.getD i none
        = some (dayOutput model 0 tr te ((forecastDatesOf te).getD i 0)) := by
  rw [mainRun_success model dataset years_test 0 tr te halign
    (forecastDatesOf_pairwise te hts) hm]
  refine ⟨rfl, rfl, ?_⟩
  intro i hi
  exact closed_forecast_getD_lt model 0 tr te (forecastDatesOf te)
    (chunk24 (te.map (fun r => r.price.getD 0))) (forecastDatesOf te).length i le_rfl hi

/-- Witness for the amended C3 on the concrete one-day run with
`calibration_window = 0`. -/
theorem C3_amended_no_validation_w :
    testW1.length % 24 = 0 ∧
    List.Pairwise (fun a b => a < b) (testW1.map Row.ts) ∧
    ((mainRun modelC "PJM" 2 0 trainW testW1).errorLogged = none ∧
    (mainRun modelC "PJM" 2 0 trainW testW1).propagated = none ∧
    ∀ i, i < (forecastDatesOf testW1).length →
      (mainRun modelC "PJM" 2 0 trainW testW1).finalState.forecast.getD i none
        = some (dayOutput modelC 0 trainW testW1 ((forecastDatesOf testW1).getD i 0))) :=
  ⟨by decide, by decide,
    C3_amended_no_validation modelC "PJM" 2 trainW testW1 (by decide) (by decide) (by decide)⟩

/-- C8: the forecast matrix is never persisted.  The script computes
`forecast_file_path` (run.py line 122) but contains no `to_csv` or any
other write of the forecast matrix, so even a run that completes
successfully saves no file.  Evaluated on a concrete one-day run that
completes without error. -/
theorem C8_no_file_saved :
    (mainRun modelC "PJM" 2 1 trainW testW1).errorLogged = none ∧
    (mainRun modelC "PJM" 2 1 trainW testW1).forecastFilePath
      = "./experimental_files/fc_nl_datPJM_YT2_CW1.csv" ∧
    (mainRun modelC "PJM" 2 1 trainW testW1).savedFiles = [] := by
  refine ⟨?_, ?_, ?_⟩ <;> decide

/-- C9 counterexample: a failing run (misaligned test series).  The
failure is logged, but `main` catches the exception and `handle_error`
does not re-raise: nothing reaches the caller and the run terminates
normally — contradicting "propagated to the caller of run" and "the
engine never terminates normally after an error". -/
theorem C9_cex :
    ((mainRun modelC "NP" 1 3 trainW (testW2.take 23)).errorLogged).isSome = true ∧
    (mainRun modelC "NP" 1 3 trainW (testW2.take 23)).propagated = none := by
  refine ⟨?_, ?_⟩ <;> decide

/-- C9 (amended): `main` never propagates: every run — failing or not —
terminates normally with nothing re-raised to the caller; a failure is
recorded only through `handle_error`'s log message (built from the
exception text, not the day identifier), e.g. a misaligned test series
logs the reshape error.  Callers cannot distinguish success from
failure by `main`'s return. -/
theorem C9_amended_logged_swallowed (model : Model) (dataset : String)
    (years_test calibration_window : Nat) (tr te : List Row) :
    (mainRun model dataset years_test calibration_window tr te).propagated = none ∧
    (¬te.length % 24 = 0 →
      (mainRun model dataset years_test calibration_window tr te).errorLogged
        = some (handle_error_message PyError.valueErrorReshape)) := by
  constructor
  · by_cases h : te.length % 24 = 0
    · rcases hp : processDates model calibration_window (forecastDatesOf te)
        (mkInit tr te (forecastDatesOf te)
          (chunk24 (te.map (fun r => r.price.getD 0)))) with ⟨s, e⟩
      cases e <;> simp [mainRun, if_pos h, hp]
    · simp [mainRun, if_neg h]
  · intro h
    simp [mainRun, if_neg h]

/-- Witness for the amended C9 on a concrete 10-hour (misaligned) test
series. -/
theorem C9_amended_logged_swallowed_w :
    (mainRun modelC "BE" 1 2 trainW (testW1.take 10)).propagated = none ∧
    (mainRun modelC "BE" 1 2 trainW (testW1.take 10)).errorLogged
      = some (handle_error_message PyError.valueErrorReshape) :=
  ⟨(C9_amended_logged_swallowed modelC "BE" 1 2 trainW (testW1.take 10)).1,
   (C9_amended_logged_swallowed modelC "BE" 1 2 trainW (testW1.take 10)).2 (by decide)⟩

/-- C5: running metrics are recomputed from scratch over exactly the
prefix of completed days.  The progress record emitted right after day
index `k`'s row is written equals the pair of metrics evaluated on the
rows of days `0 … k` only — the model outputs written into the
forecast matrix against the corresponding rows of the real-value
matrix, flattened — no row after day `k` contributing, and with sMAPE
reported as the raw value times 100. -/
theorem C5_running_metrics (model : Model) (cw : Nat) (tr te : List Row)
    (dates : List Nat) (rv : List (List ℚ))
    (hs : List.Pairwise (fun a b => a < b) dates)
    (hrv : rv.length = dates.length)
    (k : Nat) (hk : k < dates.length)
    (hm : ∀ d ∈ dates.take (k + 1),
      (model (data_available tr te d) d cw).length = 24) :
    (stateAfterDays model cw dates (mkInit tr te dates rv) (k + 1)).progress.getD k
        (0, 0, 0)
      = (dates.getD k 0,
         sMAPE (((dates.take (k + 1)).map (dayOutput model cw tr te)).flatten)
               ((rv.take (k + 1)).flatten) * 100,
         MAE (((dates.take (k + 1)).map (dayOutput model cw tr te)).flatten)
             ((rv.take (k + 1)).flatten)) := by
  rw [stateAfterDays_closed model cw tr te dates rv hs hrv (k + 1) hk hm]
  simp only [closedState]
  rw [List.getD_eq_getElem?_getD, List.getElem?_map,
    List.getElem?_range (Nat.lt_succ_self k)]
  rfl

/-- Witness for C5 on a concrete two-day run, reading the progress
record of the second day. -/
theorem C5_running_metrics_w :
    List.Pairwise (fun a b => a < b) [48, 72] ∧
    ([List.replicate 24 (5 : ℚ), List.replicate 24 6].length = [48, 72].length) ∧
    (1 < ([48, 72] : List Nat).length) ∧
    (stateAfterDays modelC 1 [48, 72]
        (mkInit trainW (testW1 ++ testW2) [48, 72]
          [List.replicate 24 (5 : ℚ), List.replicate 24 6]) 2).progress.getD 1 (0, 0, 0)
      = (([48, 72] : List Nat).getD 1 0,
         sMAPE ((([48, 72] : List Nat).take 2).map
                  (dayOutput modelC 1 trainW (testW1 ++ testW2))).flatten
               (([List.replicate 24 (5 : ℚ), List.replicate 24 6].take 2).flatten) * 100,
         MAE ((([48, 72] : List Nat).take 2).map
                (dayOutput modelC 1 trainW (testW1 ++ testW2))).flatten
             (([List.replicate 24 (5 : ℚ), List.replicate 24 6].take 2).flatten)) :=
  ⟨by decide, by decide, by decide,
    C5_running_metrics modelC 1 trainW (testW1 ++ testW2) [48, 72]
      [List.replicate 24 5, List.replicate 24 6]
      (by decide) (by decide) 1 (by decide) (by decide)⟩

/-- C6: monotonic gap-free coverage and write-once rows.  After `k`
completed days the forecast matrix rows of days `0 … k-1` hold exactly
each day's model output, every row from day `k` on is still unwritten
(the written set is a gap-free prefix of the test-day sequence), and
completing day `k` changes the matrix only by setting row `k` — no
previously written row is ever rewritten. -/
theorem C6_prefix_write_once (model : Model) (cw : Nat) (tr te : List Row)
    (dates : List Nat) (rv : List (List ℚ))
    (hs : List.Pairwise (fun a b => a < b) dates)
    (hrv : rv.length = dates.length)
    (k : Nat) (hk : k < dates.length)
    (hm : ∀ d ∈ dates.take (k + 1),
      (model (data_available tr te d) d cw).length = 24) :
    (∀ i, i < k →
      (stateAfterDays model cw dates (mkInit tr te dates rv) k).forecast.getD i none
        = some (dayOutput model cw tr te (dates.getD i 0))) ∧
    (∀ i, k ≤ i →
      (stateAfterDays model cw dates (mkInit tr te dates rv) k).forecast.getD i none
        = none) ∧
    (stateAfterDays model cw dates (mkInit tr te dates rv) (k + 1)).forecast
      = ((stateAfterDays model cw dates (mkInit tr te dates rv) k).forecast).set k
          (some (dayOutput model cw tr te (dates.getD k 0))) := by
  have htk : ∀ d ∈ dates.take k, (model (data_available tr te d) d cw).length = 24 := by
    intro d hd
    apply hm
    have hsub : dates.take k = (dates.take (k + 1)).take k := by
      rw [List.take_take, min_eq_left (Nat.le_succ k)]
    rw [hsub] at hd
    exact List.take_subset k (dates.take (k + 1)) hd
  rw [stateAfterDays_closed model cw tr te dates rv hs hrv k (le_of_lt hk) htk,
    stateAfterDays_closed model cw tr te dates rv hs hrv (k + 1) hk hm]
  refine ⟨?_, ?_, ?_⟩
  · intro i hi
    exact closed_forecast_getD_lt model cw tr te dates rv k i (le_of_lt hk) hi
  · intro i hi
    exact closed_forecast_getD_ge model cw tr te dates rv k i (le_of_lt hk) hi
  · exact closed_forecast_set model cw tr te dates rv k hk

/-- Witness for C6 on the concrete two-day run at `k = 1`. -/
theorem C6_prefix_write_once_w :
    List.Pairwise (fun a b => a < b) [48, 72] ∧
    ([List.replicate 24 (5 : ℚ), List.replicate 24 6].length = [48, 72].length) ∧
    (1 < ([48, 72] : List Nat).length) ∧
    ((∀ i, i < 1 →
      (stateAfterDays modelC 1 [48, 72]
          (mkInit trainW (testW1 ++ testW2) [48, 72]
            [List.replicate 24 (5 : ℚ), List.replicate 24 6]) 1).forecast.getD i none
        = some (dayOutput modelC 1 trainW (testW1 ++ testW2)
            (([48, 72] : List Nat).getD i 0))) ∧
    (∀ i, 1 ≤ i →
      (stateAfterDays modelC 1 [48, 72]
          (mkInit trainW (testW1 ++ testW2) [48, 72]
            [List.replicate 24 (5 : ℚ), List.replicate 24 6]) 1).forecast.getD i none
        = none) ∧
    (stateAfterDays modelC 1 [48, 72]
        (mkInit trainW (testW1 ++ testW2) [48, 72]
          [List.replicate 24 (5 : ℚ), List.replicate 24 6]) 2).forecast
      = ((stateAfterDays modelC 1 [48, 72]
          (mkInit trainW (testW1 ++ testW2) [48, 72]
            [List.replicate 24 (5 : ℚ), List.replicate 24 6]) 1).forecast).set 1
          (some (dayOutput modelC 1 trainW (testW1 ++ testW2)
            (([48, 72] : List Nat).getD 1 0)))) :=
  ⟨by decide, by decide, by decide,
    C6_prefix_write_once modelC 1 trainW (testW1 ++ testW2) [48, 72]
      [List.replicate 24 5, List.replicate 24 6]
      (by decide) (by decide) 1 (by decide) (by decide)⟩
